import Mathlib

/-!
Verification development for the SKU lookup application
(`src/sku_lookup_app.py`) against its natural-language specification.

The first part embeds the lookup side of the program: the spreadsheet
loader `load_sku_database` (sheet iteration with a silent skip of
unreadable sheets, `dropna` on the SKU/Description columns, `astype(str)`,
Python-dict accumulation, and the final `pd.concat` over the collected
description series), the single-SKU lookup of line 64
(`sku_lookup.get(sku_input.strip(), "SKU not found.")`), the batch lookup
of line 82, and the reverse search of lines 98-99
(`description_df.str.contains(search_term, case=False, na=False)` guarded
by `if search_term:`).

The second part embeds the SKU codec.  The codec is not implemented in the
source file; it is only specified by the requirements comment at the top of
the file and by the specification document, so those definitions are
modelled from the spec and say so in their doc comments.
-/

namespace SkuApp

/-- Whitespace characters stripped by Python's `str.strip()` (the ASCII
fragment, which covers every string occurring in this development). -/
def isPySpace (c : Char) : Bool :=
  c == ' ' || c == '\t' || c == '\n' || c == '\r' || c == '\x0B' || c == '\x0C'

/-- `l.strip()` on the character list: drop whitespace from both ends. -/
def pyStripList (l : List Char) : List Char :=
  ((l.dropWhile isPySpace).reverse.dropWhile isPySpace).reverse

/-- Python's `s.strip()` with no argument: remove leading and trailing
whitespace.  Used by the lookups at lines 64 and 82 of the source. -/
def pyStrip (s : String) : String :=
  String.mk (pyStripList s.data)

/-- A spreadsheet cell as seen by pandas: missing (`NaN`), a string, or a
number.  `dropna` tests for the missing case; `astype(str)` converts the
rest to strings. -/
inductive Cell
  | na
  | str (s : String)
  | int (n : Int)
deriving DecidableEq

/-- `pandas.isna` on a cell. -/
def Cell.isna : Cell → Bool
  | .na => true
  | _ => false

/-- `astype(str)` on a single (non-dropped or dropped alike) cell: the
string itself for strings, decimal rendering for numbers, and pandas'
`"nan"` rendering for a missing value (the loader only applies it after
`dropna`, so the last case never feeds the table). -/
def Cell.astypeStr : Cell → String
  | .na => "nan"
  | .str s => s
  | .int n => toString n

/-- One data row of a sheet, restricted to the two columns the loader
reads (`usecols` keeps only `SKU` and `Description`). -/
structure Row where
  sku : Cell
  description : Cell
deriving DecidableEq

/-- `df.dropna(subset=['SKU', 'Description'])` keeps a row iff both cells
are present. -/
def rowOk (r : Row) : Bool :=
  !r.sku.isna && !r.description.isna

/-- The `(SKU, Description)` string pair a surviving row contributes, via
`astype(str)` on both columns (line 43 of the source). -/
def rowPair (r : Row) : String × String :=
  (r.sku.astypeStr, r.description.astypeStr)

/-- `zip(df['SKU'].astype(str), df['Description'].astype(str))` for one
sheet after `dropna`: the key/value pairs in row order. -/
def pairsOf (rs : List Row) : List (String × String) :=
  (rs.filter rowOk).map rowPair

/-- `df['Description'].astype(str)` for one sheet after `dropna`: the
descriptions in row order (line 44 of the source). -/
def descListOf (rs : List Row) : List String :=
  (rs.filter rowOk).map (fun r => r.description.astypeStr)

/-- One sheet of the uploaded workbook, as the loader's `try` block sees
it: either the read fails (missing/mis-cased `SKU`/`Description` columns
make `read_excel`/`dropna` raise, caught by the bare `except`), or it
yields a list of rows. -/
inductive SheetData
  | unreadable
  | rows (rs : List Row)
deriving DecidableEq

/-- Python-dict lookup: the table keeps at most one pair per key, so the
first matching pair is the binding.  Models `d[k]` / `d.get(k, ...)`. -/
def dictGet? (d : List (String × String)) (k : String) : Option String :=
  (d.find? (fun p => p.1 == k)).map Prod.snd

/-- Python-dict insertion `d[k] = v`: an existing key keeps its position
and gets the new value, a new key is appended (CPython insertion-order
semantics). -/
def dictInsert : List (String × String) → String → String → List (String × String)
  | [], k, v => [(k, v)]
  | p :: rest, k, v => if p.1 = k then (k, v) :: rest else p :: dictInsert rest k v

/-- `d.update(dict(zip(ks, vs)))` (line 43): insert every pair in order;
later pairs for the same key overwrite earlier ones. -/
def dictUpdateList (d : List (String × String)) (kvs : List (String × String)) :
    List (String × String) :=
  kvs.foldl (fun d p => dictInsert d p.1 p.2) d

/-- The value the last occurrence of key `k` carries in `kvs`, if any. -/
def lastOcc (kvs : List (String × String)) (k : String) : Option String :=
  (kvs.reverse.find? (fun p => p.1 == k)).map Prod.snd

/-- One iteration of the loader's sheet loop: an unreadable sheet is
skipped by `except: continue`; a readable one updates `sku_lookup` and
appends its description series to `all_descriptions`. -/
def stepSheet (acc : List (String × String) × List (List String)) (s : SheetData) :
    List (String × String) × List (List String) :=
  match s with
  | .unreadable => acc
  | .rows rs => (dictUpdateList acc.1 (pairsOf rs), acc.2 ++ [descListOf rs])

/-- The loader's loop over `xls.sheet_names`, starting from the empty
table and empty description-series list. -/
def foldSheets (sheets : List SheetData) : List (String × String) × List (List String) :=
  sheets.foldl stepSheet ([], [])

/-- The exception `pd.concat` raises at line 47 when `all_descriptions`
is empty: `ValueError: No objects to concatenate`. -/
inductive LoadError
  | noObjectsToConcatenate
deriving DecidableEq

/-- `load_sku_database` (lines 35-48): iterate the sheets, then
concatenate the collected description series.  `pd.concat` on an empty
list raises, which is the only way the function fails; otherwise it
returns the SKU table and the flat description sequence. -/
def load_sku_database (sheets : List SheetData) :
    Except LoadError (List (String × String) × List String) :=
  let acc := foldSheets sheets
  if acc.2.isEmpty then .error .noObjectsToConcatenate
  else .ok (acc.1, acc.2.flatten)

/-- The miss sentinel of lines 64 and 82: `"SKU not found."`. -/
def notFoundMsg : String := "SKU not found."

/-- Line 64: `sku_lookup.get(sku_input.strip(), "SKU not found.")`. -/
def resolve (tbl : List (String × String)) (sku : String) : String :=
  (dictGet? tbl (pyStrip sku)).getD notFoundMsg

/-- Line 82: the batch column is mapped element-wise through
`lambda x: sku_lookup.get(x.strip(), "SKU not found.")`, keeping each
input SKU next to its result row. -/
def batch_resolve (tbl : List (String × String)) (skus : List String) :
    List (String × String) :=
  skus.map (fun x => (x, (dictGet? tbl (pyStrip x)).getD notFoundMsg))

/-- The metacharacters of Python's `re` module. -/
def reMeta : List Char :=
  ['.', '^', '$', '*', '+', '?', '{', '}', '[', ']', '\\', '|', '(', ')']

/-- A compiled token of the modelled regex fragment: a literal character
or the `.` wildcard. -/
inductive ReTok
  | lit (c : Char)
  | dot
deriving DecidableEq

/-- The exception `re.error` that `re.compile` raises on an invalid
pattern (e.g. the unbalanced `"("` or `"["`). -/
inductive ReError
  | badPattern
deriving DecidableEq

/-- `re.compile(term, re.IGNORECASE)` as invoked by
`Series.str.contains(term, case=False)` with its default `regex=True`,
modelled on the fragment this development needs: a pattern whose
characters are ordinary (non-metacharacter) literals or the `.` wildcard
compiles to the corresponding token list; every other pattern is mapped
to the failure case.  On the inputs the claims exercise this is exact:
a lone `"("` or `"["` raises `re.error` in Python, and `.` is the
any-character wildcard; richer syntax (classes, groups, repetition) is
outside the model and conservatively mapped to the failure case. -/
def reCompile (t : String) : Except ReError (List ReTok) :=
  if t.data.all (fun c => c == '.' || !reMeta.contains c) then
    .ok (t.data.map (fun c => if c == '.' then ReTok.dot else ReTok.lit c))
  else .error .badPattern

/-- Anchored match of a compiled pattern at the head of the text, with
`re.IGNORECASE` case folding. -/
def reMatchHere : List ReTok → List Char → Bool
  | [], _ => true
  | _ :: _, [] => false
  | .dot :: ps, _ :: cs => reMatchHere ps cs
  | .lit a :: ps, c :: cs => (a.toLower == c.toLower) && reMatchHere ps cs

/-- `re.search`: the pattern matches at some position of the text. -/
def reSearch (ps : List ReTok) : List Char → Bool
  | [] => reMatchHere ps []
  | c :: t => reMatchHere ps (c :: t) || reSearch ps t

/-- Lines 98-99 of the source: the reverse lookup runs only when the
entered term is non-empty (`if search_term:`), and then filters the
description series with
`description_df.str.contains(search_term, case=False, na=False)` —
a case-insensitive *regular-expression* search (`regex=True` is the
pandas default).  `na=False` is vacuous here because every stored
description is a string. -/
def search (descriptions : List String) (term : String) :
    Except ReError (List String) :=
  if term = "" then .ok []
  else
    match reCompile term with
    | .error e => .error e
    | .ok pat => .ok (descriptions.filter (fun d => reSearch pat d.data))

/-- Case-insensitive "starts with" on character lists. -/
def startsWithCI : List Char → List Char → Bool
  | _, [] => true
  | [], _ :: _ => false
  | h :: hs, n :: ns => (h.toLower == n.toLower) && startsWithCI hs ns

/-- Case-insensitive literal substring containment on character lists. -/
def containsCI : List Char → List Char → Bool
  | [], needle => startsWithCI [] needle
  | c :: t, needle => startsWithCI (c :: t) needle || containsCI t needle

/-- The search operation as the specification words it (§4.5): a
*case-insensitive literal substring* filter over the stored descriptions
in index order, with the empty term returning the empty sequence.  This
definition follows the spec, not the source; it exists to be compared
with `search` above. -/
def searchLiteralSpec (descriptions : List String) (term : String) : List String :=
  if term = "" then []
  else descriptions.filter (fun d => containsCI d.data term.data)

/-! ## The SKU codec

None of the definitions below exist in `src/sku_lookup_app.py`; the
source only states their requirements in its opening comment, and the
specification (§4.1-§4.5, §9) reconstructs them.  They are therefore
modelled from the spec, as their doc comments record.  Where the spec
leaves the grammar open (the full shape-code and keyway-code tables, §9),
the model includes exactly the codes the spec's examples exhibit. -/

/-- Modelled from the spec (§7): the recoverable error kinds of the
codec. -/
inductive SkuError
  | MalformedSku
  | UnknownShapeCode
  | InvalidKeywayForDie
  | UnsupportedPrecision
deriving DecidableEq

/-- Modelled from the spec (§3): the two tool kinds. -/
inductive Kind
  | Punch
  | Die
deriving DecidableEq

/-- Modelled from the spec (§3): the shapes; the spec's closed code table
is an open question (§9), so the model carries the two shapes its worked
examples use — `Round` (one dimension) and `Oblong` (two dimensions). -/
inductive Shape
  | Round
  | Oblong
deriving DecidableEq

/-- Modelled from the spec (§3): the keyway options of a punch. -/
inductive Keyway
  | None
  | Single
  | Double
deriving DecidableEq

/-- Modelled from the spec (§3): a dimension as a positive rational,
kept as a numerator/denominator pair of naturals. -/
def reduceFrac (n d : Nat) : Nat × Nat :=
  let g := Nat.gcd n d
  (n / g, d / g)

/-- Modelled from the spec (§3): the structured result of parsing a SKU. -/
structure ToolDescriptor where
  kind : Kind
  shape : Shape
  width : Nat × Nat
  length : Option (Nat × Nat)
  keyway : Option Keyway
  raw_sku : String
deriving DecidableEq

/-- Modelled from the spec (§4.1): the configured maximum denominator of
the fraction formatter (default 64). -/
def maxDenominator : Nat := 64

/-- Modelled from the spec (§4.1): reduce to lowest terms, split into
whole and fractional part, never emit a zero numerator term; a reduced
denominator that does not divide the maximum denominator evenly fails
with `UnsupportedPrecision`. -/
def formatDim (v : Nat × Nat) : Except SkuError String :=
  let g := Nat.gcd v.1 v.2
  let n := v.1 / g
  let d := v.2 / g
  if maxDenominator % d ≠ 0 then .error .UnsupportedPrecision
  else
    let whole := n / d
    let num := n % d
    if num = 0 then .ok (toString whole)
    else if whole = 0 then .ok (s!"{num}/{d}")
    else .ok (s!"{whole} {num}/{d}")

/-- Python's `sku.split('-')` on a character list: hyphen-separated
fields, with `"".split('-') == [""]`. -/
def splitFields : List Char → List (List Char)
  | [] => [[]]
  | c :: cs =>
    if c = '-' then [] :: splitFields cs
    else
      match splitFields cs with
      | [] => [[c]]
      | f :: fs => (c :: f) :: fs

/-- `int(field)` for a zero-padded decimal field: defined exactly on
non-empty all-digit strings. -/
def digitsToNat? (cs : List Char) : Option Nat :=
  if cs ≠ [] && cs.all Char.isDigit then
    some (cs.foldl (fun a c => 10 * a + (c.toNat - 48)) 0)
  else none

/-- Modelled from the spec (§4.2, §9): the closed product-line code
table; only the codes of the spec's examples are known — `VPL` is the
punch line and `313` the die line. -/
def kindOfCode (c : String) : Option Kind :=
  if c = "VPL" then some .Punch
  else if c = "313" then some .Die
  else none

/-- Modelled from the spec (§4.2, §9): the closed shape code table with
each shape's dimension count; only the codes of the spec's examples are
known — `RND` (Round, one dimension) and `OBL` (Oblong, two
dimensions). -/
def shapeOfCode (c : String) : Option (Shape × Nat) :=
  if c = "RND" then some (.Round, 1)
  else if c = "OBL" then some (.Oblong, 2)
  else none

/-- Modelled from the spec (§4.2, §9): the keyway-code table is an open
question; the model carries one code per non-default keyway option. -/
def keywayOfCode (c : String) : Option Keyway :=
  if c = "K1" then some .Single
  else if c = "K2" then some .Double
  else none

/-- Modelled from the spec (§4.2): the sub-unit scale — numeric fields
are zero-padded integers in thousandths of an inch. -/
def subUnitScale : Nat := 1000

/-- Modelled from the spec (§4.2): `parse(sku)`.  Hyphen-delimited
fields; the first two fields name the product line and the shape via the
closed code tables (unknown codes fail with `UnknownShapeCode`); then
one numeric width field for one-dimension shapes or width and length
fields for two-dimension shapes, each converted to a dimension by
dividing by the sub-unit scale and reducing; an optional trailing keyway
field is rejected with `InvalidKeywayForDie` when the line is a die;
every other malformation fails with `MalformedSku`. -/
def parse (sku : String) : Except SkuError ToolDescriptor :=
  match (splitFields sku.data).map String.mk with
  | kc :: sc :: rest =>
    match kindOfCode kc, shapeOfCode sc with
    | some kind, some (shape, arity) =>
      if arity = 1 then
        match rest with
        | [wf] =>
          match digitsToNat? wf.data with
          | some w =>
            .ok ⟨kind, shape, reduceFrac w subUnitScale, none,
                 if kind = .Punch then some .None else none, sku⟩
          | none => .error .MalformedSku
        | [wf, kf] =>
          if kind = .Die then .error .InvalidKeywayForDie
          else
            match digitsToNat? wf.data, keywayOfCode kf with
            | some w, some ky =>
              .ok ⟨kind, shape, reduceFrac w subUnitScale, none, some ky, sku⟩
            | _, _ => .error .MalformedSku
        | _ => .error .MalformedSku
      else
        match rest with
        | [wf, lf] =>
          match digitsToNat? wf.data, digitsToNat? lf.data with
          | some w, some l =>
            .ok ⟨kind, shape, reduceFrac w subUnitScale,
                 some (reduceFrac l subUnitScale),
                 if kind = .Punch then some .None else none, sku⟩
          | _, _ => .error .MalformedSku
        | [wf, lf, kf] =>
          if kind = .Die then .error .InvalidKeywayForDie
          else
            match digitsToNat? wf.data, digitsToNat? lf.data, keywayOfCode kf with
            | some w, some l, some ky =>
              .ok ⟨kind, shape, reduceFrac w subUnitScale,
                   some (reduceFrac l subUnitScale), some ky, sku⟩
            | _, _, _ => .error .MalformedSku
        | _ => .error .MalformedSku
    | none, _ => .error .UnknownShapeCode
    | _, none => .error .UnknownShapeCode
  | _ => .error .MalformedSku

/-- Modelled from the spec (§4.3): shape names as rendered. -/
def shapeName : Shape → String
  | .Round => "Round"
  | .Oblong => "Oblong"

/-- Modelled from the spec (§4.3): the kind renders lowercase. -/
def kindName : Kind → String
  | .Punch => "punch"
  | .Die => "die"

/-- Modelled from the spec (§4.3): the keyway clause renders only for
punches; a punch with no keyway information renders the `None` clause. -/
def keywaySuffix (d : ToolDescriptor) : String :=
  match d.kind with
  | .Die => ""
  | .Punch =>
    match d.keyway.getD .None with
    | .None => ", no keyways"
    | .Single => ", single keyway"
    | .Double => ", double keyway"

/-- Modelled from the spec (§4.3): `render(descriptor)` — the
one-dimension template `"{width} {Shape} {kind}{keyway}"` or the
two-dimension template `"{width} x {length} {Shape} {kind}{keyway}"`,
with every number produced by the fraction formatter. -/
def render (d : ToolDescriptor) : Except SkuError String :=
  match d.length with
  | none => do
    let w ← formatDim d.width
    pure (w ++ " " ++ shapeName d.shape ++ " " ++ kindName d.kind ++ keywaySuffix d)
  | some len => do
    let w ← formatDim d.width
    let l ← formatDim len
    pure (w ++ " x " ++ l ++ " " ++ shapeName d.shape ++ " " ++ kindName d.kind
          ++ keywaySuffix d)

/-- Modelled from the spec (§4.4): `decode(sku) = render(parse(sku))`,
propagating either stage's error unchanged. -/
def decode (sku : String) : Except SkuError String :=
  (parse sku).bind render

/-- Modelled from the spec (§4.5): `resolve` with the codec fallback —
exact-match against the table first; on a miss, attempt `decode`; only
when the decode also fails answer `NotFound` (the source implements only
the table half of this, at line 64, without the fallback). -/
def resolveWithCodec (tbl : List (String × String)) (sku : String) : String :=
  match dictGet? tbl sku with
  | some d => d
  | none =>
    match decode sku with
    | .ok d => d
    | .error _ => notFoundMsg

/-- `build(entries)` of the spec in the loader's terms: a workbook with a
single readable sheet whose rows carry exactly the given
`(sku, description)` string entries. -/
def mkRow (p : String × String) : Row :=
  ⟨.str p.1, .str p.2⟩

/-- The table the loader builds from a single sheet of plain string
entries. -/
def tableOfEntries (entries : List (String × String)) : List (String × String) :=
  (foldSheets [SheetData.rows (entries.map mkRow)]).1

/-- The description series a readable sheet contributes, if any. -/
def descOf : SheetData → Option (List String)
  | .unreadable => none
  | .rows rs => some (descListOf rs)

/-! ## Helper lemmas -/

theorem dictGet?_cons (p : String × String) (d : List (String × String)) (k : String) :
    dictGet? (p :: d) k = if p.1 = k then some p.2 else dictGet? d k := by
  by_cases h : p.1 = k <;> simp [dictGet?, List.find?_cons, h]

theorem dictGet?_insert (d : List (String × String)) (k v k' : String) :
    dictGet? (dictInsert d k v) k' = if k' = k then some v else dictGet? d k' := by
  induction d with
  | nil =>
    by_cases h : k' = k
    · subst h; simp [dictInsert, dictGet?_cons]
    · simp [dictInsert, dictGet?_cons, h, Ne.symm h]
  | cons q d ih =>
    by_cases hq : q.1 = k
    · by_cases h : k' = k
      · subst h; simp [dictInsert, hq, dictGet?_cons]
      · have hqk : ¬ q.1 = k' := by rw [hq]; exact fun hh => h hh.symm
        simp [dictInsert, hq, dictGet?_cons, h, Ne.symm h, hqk]
    · by_cases h : k' = k
      · subst h; simp [dictInsert, hq, dictGet?_cons, ih]
      · simp [dictInsert, hq, dictGet?_cons, ih, h]

theorem lastOcc_cons (p : String × String) (kvs : List (String × String)) (k : String) :
    lastOcc (p :: kvs) k =
      (lastOcc kvs k).or (if p.1 = k then some p.2 else none) := by
  by_cases h : p.1 = k <;>
    cases hfind : kvs.reverse.find? (fun q => q.1 == k) <;>
      simp [lastOcc, List.find?_append, hfind, h]

theorem dictGet?_updateList (d kvs : List (String × String)) (k : String) :
    dictGet? (dictUpdateList d kvs) k = (lastOcc kvs k).or (dictGet? d k) := by
  induction kvs generalizing d with
  | nil => simp [dictUpdateList, lastOcc]
  | cons p kvs ih =>
    rw [show dictUpdateList d (p :: kvs) = dictUpdateList (dictInsert d p.1 p.2) kvs
      from rfl]
    rw [ih, dictGet?_insert, lastOcc_cons]
    cases lastOcc kvs k with
    | some v => simp
    | none =>
      by_cases h : p.1 = k
      · subst h; simp
      · simp [h, Ne.symm h]

theorem mem_dictInsert (d : List (String × String)) (k v : String) (p : String × String)
    (h : p ∈ dictInsert d k v) : p ∈ d ∨ p = (k, v) := by
  induction d with
  | nil =>
    right
    have h' : p ∈ [(k, v)] := h
    simpa using h'
  | cons q d ih =>
    by_cases hq : q.1 = k
    · rw [show dictInsert (q :: d) k v = (k, v) :: d from by simp [dictInsert, hq]] at h
      rcases List.mem_cons.mp h with h1 | h1
      · right; exact h1
      · left; exact List.mem_cons_of_mem _ h1
    · rw [show dictInsert (q :: d) k v = q :: dictInsert d k v from by
        simp [dictInsert, hq]] at h
      rcases List.mem_cons.mp h with h1 | h1
      · left; simp [h1]
      · rcases ih h1 with h2 | h2
        · left; exact List.mem_cons_of_mem _ h2
        · right; exact h2

theorem mem_dictUpdateList (d kvs : List (String × String)) (p : String × String)
    (h : p ∈ dictUpdateList d kvs) : p ∈ d ∨ p ∈ kvs := by
  induction kvs generalizing d with
  | nil => exact Or.inl h
  | cons q kvs ih =>
    have h' : p ∈ dictUpdateList (dictInsert d q.1 q.2) kvs := h
    rcases ih _ h' with h1 | h1
    · rcases mem_dictInsert _ _ _ _ h1 with h2 | h2
      · exact Or.inl h2
      · right; simp [h2]
    · right; exact List.mem_cons_of_mem _ h1

theorem foldl_stepSheet_snd (sheets : List SheetData)
    (acc : List (String × String) × List (List String)) :
    (sheets.foldl stepSheet acc).2 = acc.2 ++ sheets.filterMap descOf := by
  induction sheets generalizing acc with
  | nil => simp
  | cons s sheets ih =>
    cases s with
    | unreadable => simpa [stepSheet, descOf] using ih acc
    | rows rs => simp [stepSheet, descOf, ih, List.filterMap_cons]

theorem mem_fst_foldl_stepSheet (sheets : List SheetData)
    (acc : List (String × String) × List (List String)) (p : String × String)
    (h : p ∈ (sheets.foldl stepSheet acc).1) :
    p ∈ acc.1 ∨ ∃ rs, SheetData.rows rs ∈ sheets ∧ p ∈ pairsOf rs := by
  induction sheets generalizing acc with
  | nil => exact Or.inl h
  | cons s sheets ih =>
    cases s with
    | unreadable =>
      rcases ih _ h with h1 | ⟨rs, h1, h2⟩
      · exact Or.inl h1
      · exact Or.inr ⟨rs, List.mem_cons_of_mem _ h1, h2⟩
    | rows rs0 =>
      rcases ih _ h with h1 | ⟨rs, h1, h2⟩
      · rcases mem_dictUpdateList _ _ _ h1 with h2 | h2
        · exact Or.inl h2
        · exact Or.inr ⟨rs0, by simp, h2⟩
      · exact Or.inr ⟨rs, List.mem_cons_of_mem _ h1, h2⟩

theorem dropWhile_append_of_all (p : Char → Bool) (l m : List Char)
    (h : ∀ c ∈ l, p c) : (l ++ m).dropWhile p = m.dropWhile p := by
  induction l with
  | nil => rfl
  | cons c l ih =>
    rw [List.cons_append, List.dropWhile_cons]
    simp only [h c (List.mem_cons_self c l)]
    exact ih (fun x hx => h x (List.mem_cons_of_mem _ hx))

theorem dropWhile_append_of_exists (p : Char → Bool) (l m : List Char)
    (h : ∃ c ∈ l, ¬ p c) : (l ++ m).dropWhile p = l.dropWhile p ++ m := by
  induction l with
  | nil => simp at h
  | cons c l ih =>
    by_cases hc : p c
    · rcases h with ⟨x, hx, hpx⟩
      rcases List.mem_cons.mp hx with rfl | hx'
      · exact absurd hc hpx
      · rw [List.cons_append, List.dropWhile_cons]
        simp only [hc, if_pos]
        rw [ih ⟨x, hx', hpx⟩, List.dropWhile_cons]
        simp [hc]
    · rw [List.cons_append, List.dropWhile_cons, List.dropWhile_cons]
      simp [hc]

theorem dropWhile_eq_self_of_append (p : Char → Bool) (u w : List Char)
    (h : (u ++ w).dropWhile p = u ++ w) : u.dropWhile p = u := by
  cases u with
  | nil => rfl
  | cons a u' =>
    have ha : ¬ p a := by
      have h2 := List.dropWhile_eq_self_iff.mp (show ((a :: (u' ++ w)).dropWhile p
        = a :: (u' ++ w)) by simpa using h)
      simpa using h2 (by simp)
    rw [List.dropWhile_cons]
    simp [ha]

theorem pyStripList_idem (l : List Char) :
    pyStripList (pyStripList l) = pyStripList l := by
  unfold pyStripList
  set t := l.dropWhile isPySpace with ht
  have htt : t.dropWhile isPySpace = t := List.dropWhile_idempotent _ _
  set u := (t.reverse.dropWhile isPySpace).reverse with hu
  have hsplit : u ++ (t.reverse.takeWhile isPySpace).reverse = t := by
    rw [hu, ← List.reverse_append, List.takeWhile_append_dropWhile, List.reverse_reverse]
  have h1 : u.dropWhile isPySpace = u := by
    apply dropWhile_eq_self_of_append isPySpace u ((t.reverse.takeWhile isPySpace).reverse)
    rw [hsplit]; exact htt
  have h2 : u.reverse.dropWhile isPySpace = u.reverse := by
    rw [hu, List.reverse_reverse]
    exact List.dropWhile_idempotent _ _
  rw [h1, h2, List.reverse_reverse]

theorem pyStrip_idem (s : String) : pyStrip (pyStrip s) = pyStrip s := by
  unfold pyStrip
  rw [show (String.mk (pyStripList s.data)).data = pyStripList s.data from rfl,
    pyStripList_idem]

theorem pyStripList_pad (pre post l : List Char)
    (hpre : ∀ c ∈ pre, isPySpace c) (hpost : ∀ c ∈ post, isPySpace c) :
    pyStripList (pre ++ l ++ post) = pyStripList l := by
  unfold pyStripList
  rw [List.append_assoc, dropWhile_append_of_all isPySpace pre (l ++ post) hpre]
  by_cases hall : ∀ c ∈ l, isPySpace c
  · rw [dropWhile_append_of_all isPySpace l post hall,
      List.dropWhile_eq_nil_iff.mpr hpost,
      List.dropWhile_eq_nil_iff.mpr hall]
  · push_neg at hall
    rcases hall with ⟨x, hx, hpx⟩
    rw [dropWhile_append_of_exists isPySpace l post ⟨x, hx, by simp [hpx]⟩,
      List.reverse_append,
      dropWhile_append_of_all isPySpace post.reverse _
        (fun c hc => hpost c (List.mem_reverse.mp hc))]

theorem pyStrip_pad (pre post s : String)
    (hpre : ∀ c ∈ pre.data, isPySpace c) (hpost : ∀ c ∈ post.data, isPySpace c) :
    pyStrip (pre ++ s ++ post) = pyStrip s := by
  unfold pyStrip
  rw [String.data_append, String.data_append, pyStripList_pad _ _ _ hpre hpost]

theorem pairsOf_map_mkRow (es : List (String × String)) :
    pairsOf (es.map mkRow) = es := by
  induction es with
  | nil => rfl
  | cons e es ih =>
    simp only [pairsOf, List.map_cons, List.filter_cons] at ih ⊢
    rw [show rowOk (mkRow e) = true from rfl]
    simp only [if_pos, List.map_cons, ih]
    rfl

theorem descListOf_map_mkRow (es : List (String × String)) :
    descListOf (es.map mkRow) = es.map Prod.snd := by
  induction es with
  | nil => rfl
  | cons e es ih =>
    simp only [descListOf, List.map_cons, List.filter_cons] at ih ⊢
    rw [show rowOk (mkRow e) = true from rfl]
    simp only [if_pos, List.map_cons, ih]
    rfl

theorem tableOfEntries_eq (es : List (String × String)) :
    tableOfEntries es = dictUpdateList [] es := by
  unfold tableOfEntries foldSheets
  rw [show ([SheetData.rows (es.map mkRow)].foldl stepSheet ([], [])) =
    stepSheet ([], []) (SheetData.rows (es.map mkRow)) from rfl]
  simp [stepSheet, pairsOf_map_mkRow]

/-! ## Claim theorems -/

/-- Claim C3: the claim asserts a literal substring search, but the code
passes the term to pandas `str.contains` with its default `regex=True`.
At the concrete index `["1x2 Round punch"]` the term `"1.2"` matches the
description (`.` is the any-character wildcard) although it is not a
literal substring of it — the spec-worded literal search returns nothing
there — and the term `"("` raises `re.error` instead of returning a match
list. -/
theorem claim_C3_regex_not_literal :
    search ["1x2 Round punch"] "1.2" = .ok ["1x2 Round punch"] ∧
    containsCI "1x2 Round punch".data "1.2".data = false ∧
    searchLiteralSpec ["1x2 Round punch"] "1.2" = [] ∧
    search ["1x2 Round punch"] "(" = .error .badPattern :=
  ⟨rfl, rfl, rfl, rfl⟩

/-- Claim C4: building from entries with duplicate SKU keys keeps the
last occurrence — the built table binds each key to the value of the last
entry carrying it — and concretely, after building from `A↦x` then `A↦y`,
resolving `"A"` gives `"y"`. -/
theorem claim_C4_build_last_entry_wins :
    (∀ (entries : List (String × String)) (k : String),
      dictGet? (tableOfEntries entries) k =
        (entries.reverse.find? (fun p => p.1 == k)).map Prod.snd) ∧
    resolve (tableOfEntries [("A", "x"), ("A", "y")]) "A" = "y" := by
  constructor
  · intro entries k
    rw [tableOfEntries_eq, dictGet?_updateList]
    show (lastOcc entries k).or (dictGet? [] k) = lastOcc entries k
    rw [show dictGet? [] k = none from rfl, Option.or_none]
  · rfl

/-- Claim C5: `batch_resolve` maps each input SKU, in input order, to the
pair of the SKU and its independent resolution — same length, same order,
one entry per input — and a SKU missing from the table yields the
`"SKU not found."` sentinel as a value for that element alone, with no
exception modelled anywhere. -/
theorem claim_C5_batch_shape (tbl : List (String × String)) (skus : List String) :
    (batch_resolve tbl skus).length = skus.length ∧
    (∀ i : Nat, (batch_resolve tbl skus)[i]? =
      (skus[i]?).map (fun s => (s, resolve tbl s))) ∧
    (∀ s : String, dictGet? tbl (pyStrip s) = none →
      resolve tbl s = notFoundMsg ∧ batch_resolve tbl [s] = [(s, notFoundMsg)]) := by
  refine ⟨by simp [batch_resolve], fun i => ?_, fun s h => ⟨?_, ?_⟩⟩
  · rw [batch_resolve, List.getElem?_map]
    rfl
  · simp [resolve, h]
  · simp [batch_resolve, h]

/-- Witness for C5: a batch of one known and one unknown SKU, the unknown
element resolved to the sentinel. -/
theorem claim_C5_witness :
    resolve [("A", "x")] "QQ" = notFoundMsg ∧
    batch_resolve [("A", "x")] ["QQ"] = [("QQ", notFoundMsg)] :=
  (claim_C5_batch_shape [("A", "x")] ["QQ"]).2.2 "QQ" rfl

/-- Claim C6: on a non-empty index, the empty search term returns the
empty sequence — the `if search_term:` guard short-circuits the filter —
and in particular not the full description list. -/
theorem claim_C6_empty_term (descs : List String) (h : descs ≠ []) :
    search descs "" = .ok [] ∧ search descs "" ≠ .ok descs := by
  refine ⟨rfl, fun hc => ?_⟩
  rw [show search descs "" = .ok ([] : List String) from rfl] at hc
  exact h (Except.ok.inj hc).symm

/-- Witness for C6 at a concrete non-empty index. -/
theorem claim_C6_witness :
    search ["3/8 Round punch, no keyways"] "" = .ok [] ∧
    search ["3/8 Round punch, no keyways"] "" ≠ .ok ["3/8 Round punch, no keyways"] :=
  claim_C6_empty_term ["3/8 Round punch, no keyways"] (by simp)

/-- Claim C7 counterexample: a workbook whose single sheet is readable
but holds no rows carries an empty entry sequence, yet the build succeeds
with an empty index — no `EmptyDataset`-like failure occurs. -/
theorem claim_C7_counterexample :
    load_sku_database [SheetData.rows []] = .ok ([], []) ∧ pairsOf [] = [] :=
  ⟨rfl, rfl⟩

/-- Claim C7 (amended): the build fails — `pd.concat` raising
`No objects to concatenate`, the code's analogue of `EmptyDataset` —
exactly when no sheet at all is successfully read; an input whose sheets
are readable but carry no entries instead yields a successfully built
empty index. -/
theorem claim_C7_amended (sheets : List SheetData) :
    load_sku_database sheets = .error .noObjectsToConcatenate ↔
      ∀ s ∈ sheets, s = SheetData.unreadable := by
  have hsnd : (foldSheets sheets).2 = sheets.filterMap descOf := by
    rw [foldSheets, foldl_stepSheet_snd]
    rfl
  constructor
  · intro h s hs
    by_contra hne
    cases s with
    | unreadable => exact hne rfl
    | rows rs =>
      have hmem : descListOf rs ∈ (foldSheets sheets).2 := by
        rw [hsnd]
        exact List.mem_filterMap.mpr ⟨_, hs, rfl⟩
      have hne2 : ¬ (foldSheets sheets).2.isEmpty := by
        rw [List.isEmpty_iff]
        intro hnil
        rw [hnil] at hmem
        exact List.not_mem_nil _ hmem
      rw [show load_sku_database sheets = (if (foldSheets sheets).2.isEmpty
          then Except.error LoadError.noObjectsToConcatenate
          else Except.ok ((foldSheets sheets).1, (foldSheets sheets).2.flatten))
        from rfl, if_neg hne2] at h
      exact Except.noConfusion h
  · intro h
    have hnil : sheets.filterMap descOf = [] :=
      List.filterMap_eq_nil_iff.mpr (fun s hs => by rw [h s hs]; rfl)
    rw [show load_sku_database sheets = (if (foldSheets sheets).2.isEmpty
        then Except.error LoadError.noObjectsToConcatenate
        else Except.ok ((foldSheets sheets).1, (foldSheets sheets).2.flatten))
      from rfl, if_pos (by rw [List.isEmpty_iff, hsnd]; exact hnil)]

/-- Witness for the amended C7: a workbook with a single unreadable
sheet fails the build at the concatenation step. -/
theorem claim_C7_witness :
    load_sku_database [SheetData.unreadable] = .error .noObjectsToConcatenate :=
  (claim_C7_amended [SheetData.unreadable]).mpr
    (fun _ hs => List.mem_singleton.mp hs)

/-- Claim C10: an unreadable sheet is skipped silently — the build result
is identical with or without it, so such a sheet never causes a failure
that the remaining sheets would not cause — and readable sheets aggregate
in sheet order, the last sheet's binding winning on duplicate SKUs. -/
theorem claim_C10_unreadable_skipped :
    (∀ (ss1 ss2 : List SheetData),
      load_sku_database (ss1 ++ SheetData.unreadable :: ss2) =
        load_sku_database (ss1 ++ ss2)) ∧
    (∀ (ss : List SheetData) (rs : List Row) (k : String),
      dictGet? (foldSheets (ss ++ [SheetData.rows rs])).1 k =
        (lastOcc (pairsOf rs) k).or (dictGet? (foldSheets ss).1 k)) := by
  constructor
  · intro ss1 ss2
    have hf : foldSheets (ss1 ++ SheetData.unreadable :: ss2) =
        foldSheets (ss1 ++ ss2) := by
      rw [foldSheets, foldSheets, List.foldl_append, List.foldl_append,
        List.foldl_cons]
      rfl
    rw [show load_sku_database (ss1 ++ SheetData.unreadable :: ss2) =
        (if (foldSheets (ss1 ++ SheetData.unreadable :: ss2)).2.isEmpty
          then Except.error LoadError.noObjectsToConcatenate
          else Except.ok ((foldSheets (ss1 ++ SheetData.unreadable :: ss2)).1,
            (foldSheets (ss1 ++ SheetData.unreadable :: ss2)).2.flatten))
      from rfl, hf]
    rfl
  · intro ss rs k
    have hf : (foldSheets (ss ++ [SheetData.rows rs])).1 =
        dictUpdateList (foldSheets ss).1 (pairsOf rs) := by
      rw [foldSheets, foldSheets, List.foldl_append]
      rfl
    rw [hf, dictGet?_updateList]

/-- Claim C8: both lookups strip the query before the table lookup — a
SKU surrounded by whitespace resolves like the trimmed SKU — while the
stored keys are taken verbatim from the entries, untrimmed; concretely a
key stored as `" A "` is found by a raw dict lookup but missed by the
stripping `resolve`. -/
theorem claim_C8_strip_query_not_keys (tbl : List (String × String))
    (s pre post : String)
    (hpre : ∀ c ∈ pre.data, isPySpace c) (hpost : ∀ c ∈ post.data, isPySpace c) :
    resolve tbl (pre ++ s ++ post) = resolve tbl s ∧
    resolve tbl s = resolve tbl (pyStrip s) ∧
    batch_resolve tbl [pre ++ s ++ post] = [(pre ++ s ++ post, resolve tbl s)] ∧
    (∀ (entries : List (String × String)) (p : String × String),
      p ∈ tableOfEntries entries → ∃ e ∈ entries, p.1 = e.1) ∧
    dictGet? (tableOfEntries [(" A ", "x")]) " A " = some "x" ∧
    resolve (tableOfEntries [(" A ", "x")]) " A " = notFoundMsg := by
  refine ⟨?_, ?_, ?_, ?_, rfl, rfl⟩
  · rw [resolve, resolve, pyStrip_pad _ _ _ hpre hpost]
  · rw [resolve, resolve, pyStrip_idem]
  · rw [batch_resolve, resolve, List.map_cons, List.map_nil,
      pyStrip_pad _ _ _ hpre hpost]
  · intro entries p hp
    rw [tableOfEntries_eq] at hp
    rcases mem_dictUpdateList _ _ _ hp with h1 | h1
    · exact absurd h1 (List.not_mem_nil _)
    · exact ⟨p, h1, rfl⟩

/-- Witness for C8: a SKU padded with spaces resolves like the bare
SKU. -/
theorem claim_C8_witness :
    resolve [("VPL-RND-0375", "a description")] ("  " ++ "VPL-RND-0375" ++ " ") =
      resolve [("VPL-RND-0375", "a description")] "VPL-RND-0375" :=
  (claim_C8_strip_query_not_keys [("VPL-RND-0375", "a description")]
    "VPL-RND-0375" "  " " " (by decide) (by decide)).1

/-- Claim C9: every table binding and every stored description comes —
via `astype(str)`, so as a string — from a row whose SKU and Description
cells are both present, and conversely every such row's description is
stored; rows with a missing field contribute nothing. -/
theorem claim_C9_dropna_strings (sheets : List SheetData)
    (tbl : List (String × String)) (descs : List String)
    (h : load_sku_database sheets = .ok (tbl, descs)) :
    (∀ p ∈ tbl, ∃ rs r, SheetData.rows rs ∈ sheets ∧ r ∈ rs ∧
      r.sku.isna = false ∧ r.description.isna = false ∧
      p = (r.sku.astypeStr, r.description.astypeStr)) ∧
    (∀ d ∈ descs, ∃ rs r, SheetData.rows rs ∈ sheets ∧ r ∈ rs ∧
      r.sku.isna = false ∧ r.description.isna = false ∧
      d = r.description.astypeStr) ∧
    (∀ (rs : List Row) (r : Row), SheetData.rows rs ∈ sheets → r ∈ rs →
      r.sku.isna = false → r.description.isna = false →
      r.description.astypeStr ∈ descs) := by
  have hload : load_sku_database sheets = (if (foldSheets sheets).2.isEmpty
      then Except.error LoadError.noObjectsToConcatenate
      else Except.ok ((foldSheets sheets).1, (foldSheets sheets).2.flatten)) := rfl
  rw [hload] at h
  by_cases he : (foldSheets sheets).2.isEmpty
  · rw [if_pos he] at h
    exact Except.noConfusion h
  rw [if_neg he] at h
  have hpair := Except.ok.inj h
  have htbl : tbl = (foldSheets sheets).1 := (congrArg Prod.fst hpair).symm
  have hdescs : descs = (foldSheets sheets).2.flatten := (congrArg Prod.snd hpair).symm
  have hsnd : (foldSheets sheets).2 = sheets.filterMap descOf := by
    rw [foldSheets, foldl_stepSheet_snd]
    rfl
  have hrowOk : ∀ r : Row, rowOk r = true →
      r.sku.isna = false ∧ r.description.isna = false := by
    intro r hr
    rw [rowOk, Bool.and_eq_true, Bool.not_eq_true', Bool.not_eq_true'] at hr
    exact hr
  refine ⟨?_, ?_, ?_⟩
  · intro p hp
    rw [htbl] at hp
    rcases mem_fst_foldl_stepSheet _ _ _ hp with h1 | ⟨rs, h1, h2⟩
    · exact absurd h1 (List.not_mem_nil _)
    · rw [pairsOf] at h2
      rcases List.mem_map.mp h2 with ⟨r, hr, hrp⟩
      rcases List.mem_filter.mp hr with ⟨hrs, hok⟩
      rcases hrowOk r hok with ⟨h3, h4⟩
      exact ⟨rs, r, h1, hrs, h3, h4, hrp.symm⟩
  · intro d hd
    rw [hdescs] at hd
    rcases List.mem_flatten.mp hd with ⟨l, hl, hdl⟩
    rw [hsnd] at hl
    rcases List.mem_filterMap.mp hl with ⟨sh, hsh, hsome⟩
    cases sh with
    | unreadable => exact Option.noConfusion hsome
    | rows rs =>
      have hldesc : l = descListOf rs := (Option.some.inj hsome).symm
      rw [hldesc, descListOf] at hdl
      rcases List.mem_map.mp hdl with ⟨r, hr, hrd⟩
      rcases List.mem_filter.mp hr with ⟨hrs, hok⟩
      rcases hrowOk r hok with ⟨h3, h4⟩
      exact ⟨rs, r, hsh, hrs, h3, h4, hrd.symm⟩
  · intro rs r hrs hr h3 h4
    rw [hdescs]
    refine List.mem_flatten.mpr ⟨descListOf rs, ?_, ?_⟩
    · rw [hsnd]
      exact List.mem_filterMap.mpr ⟨_, hrs, rfl⟩
    · rw [descListOf]
      refine List.mem_map.mpr ⟨r, List.mem_filter.mpr ⟨hr, ?_⟩, rfl⟩
      rw [rowOk, h3, h4]
      rfl

/-- Witness for C9: one readable sheet with one fully present row; its
description is stored in the description list. -/
theorem claim_C9_witness :
    Cell.astypeStr (Cell.str "x") ∈ ["x"] :=
  (claim_C9_dropna_strings [SheetData.rows [⟨Cell.str "A", Cell.str "x"⟩]]
    [("A", "x")] ["x"] rfl).2.2 [⟨Cell.str "A", Cell.str "x"⟩]
    ⟨Cell.str "A", Cell.str "x"⟩ (by simp) (by simp) rfl rfl

/-- Claim C1 (the codec fallback is modelled from the spec, §4.5, since
the source implements only the table half of `resolve`): on an exact key
the table's description is answered; on a miss the decode's description
is answered; only when the decode also fails is the NotFound sentinel
answered. -/
theorem claim_C1_resolve_fallback (tbl : List (String × String)) (s : String) :
    (∀ d, dictGet? tbl s = some d → resolveWithCodec tbl s = d) ∧
    (∀ d, dictGet? tbl s = none → decode s = .ok d → resolveWithCodec tbl s = d) ∧
    (∀ e, dictGet? tbl s = none → decode s = .error e →
      resolveWithCodec tbl s = notFoundMsg) :=
  ⟨fun d h => by rw [resolveWithCodec, h],
   fun d h1 h2 => by rw [resolveWithCodec, h1, h2],
   fun e h1 h2 => by rw [resolveWithCodec, h1, h2]⟩

/-- Witness for C1: a table hit, a table miss answered by the codec, and
a table miss the codec cannot decode either. -/
theorem claim_C1_witness :
    resolveWithCodec [("313-OBL-0500-0750", "authoritative")] "313-OBL-0500-0750" =
      "authoritative" ∧
    resolveWithCodec [] "VPL-RND-0375" = "3/8 Round punch, no keyways" ∧
    resolveWithCodec [] "nope" = notFoundMsg :=
  ⟨(claim_C1_resolve_fallback [("313-OBL-0500-0750", "authoritative")]
      "313-OBL-0500-0750").1 "authoritative" rfl,
   (claim_C1_resolve_fallback [] "VPL-RND-0375").2.1
      "3/8 Round punch, no keyways" rfl rfl,
   (claim_C1_resolve_fallback [] "nope").2.2 SkuError.MalformedSku rfl rfl⟩

/-- Claim C2 (the codec is modelled from the spec, §4.1-§4.4, since the
source only states its requirements): decode is render composed with
parse, the spec's two worked examples hold, and either stage's error kind
propagates through decode unchanged. -/
theorem claim_C2_decode_examples (s : String) :
    decode "VPL-RND-0375" = .ok "3/8 Round punch, no keyways" ∧
    decode "313-OBL-0500-0750" = .ok "1/2 x 3/4 Oblong die" ∧
    (∀ e, parse s = .error e → decode s = .error e) ∧
    (∀ d, parse s = .ok d → decode s = render d) := by
  refine ⟨rfl, rfl, fun e h => ?_, fun d h => ?_⟩
  · rw [decode, h]
    rfl
  · rw [decode, h]
    rfl

/-- Witness for C2: an unrecognized shape code propagates out of decode
as the parser's `UnknownShapeCode`. -/
theorem claim_C2_witness :
    decode "ZZZ-RND-0375" = .error .UnknownShapeCode :=
  (claim_C2_decode_examples "ZZZ-RND-0375").2.2.1 SkuError.UnknownShapeCode rfl

end SkuApp
